import Mathlib

/-!
Verification of the Capco scenario-fuzzing search engine against its
natural-language specification.  The engine core (reward evaluator, range
resolver, search strategies, orchestrator bookkeeping) ships outside this
repository snapshot; those components are modelled from the specification
text (spec.md together with the in-repo guides).  The parameter-range
configuration file (config/parameter_ranges.yaml) and the frontend progress
utilities (src/frontend/src/utils/progressUtils.ts) are embedded from the
actual sources.  All numeric values are rationals.
-/

namespace Capco

/-! ### Reward Evaluator (Modelled from the spec: section 4.3 of spec.md and
docs "Reward Functions Guide"; the original src/rewards.py is not in the
snapshot). -/

/-- Modelled from the spec: the Outcome record produced by the Executor
Adapter (spec.md section 3).  Optional fields are `none` when the simulator
did not report them; `valid = false` marks a crashed or timed-out run. -/
structure Outcome where
  collision : Bool
  min_time_to_collision : Option ℚ
  min_distance : Option ℚ
  ego_velocity : ℚ
  npc_velocity : ℚ
  run_number : Nat
  valid : Bool
deriving DecidableEq

/-- Modelled from the spec: the documented sentinel penalty for missing or
invalid data (1000.0 in the Reward Functions Guide). -/
def sentinelPenalty : ℚ := 1000

/-- Division that records the division-by-zero hazard: `none` is the
error value a floating-point implementation would turn into NaN or
infinity. -/
def chkDiv (a b : ℚ) : Option ℚ :=
  if b = 0 then none else some (a / b)

/-- Modelled from the spec: normalization of an optional metric onto
[0, 1] by a positive scale; a missing metric normalizes to the worst
value 1.  The spec fixes only that ttc, distance and velocity are
normalized; the scale constants are a documented modelling choice. -/
def normalizeOpt (scale : ℚ) (x : Option ℚ) : ℚ :=
  match x with
  | some v => min v scale / scale
  | none => 1

/-- Checked variant of `normalizeOpt` with the division tracked. -/
def normalizeOptChk (scale : ℚ) (x : Option ℚ) : Option ℚ :=
  match x with
  | some v => chkDiv (min v scale) scale
  | none => some 1

/-- Modelled from the spec: normalization scale for time-to-collision. -/
def ttcScale : ℚ := 10

/-- Modelled from the spec: normalization scale for minimum distance. -/
def distScale : ℚ := 50

/-- Modelled from the spec: normalization scale for ego velocity. -/
def velScale : ℚ := 30

/-- Modelled from the spec: the `collision` reward function — 0.0 on
collision, else 1.0. -/
def collisionReward (o : Outcome) : ℚ :=
  if o.collision then 0 else 1

/-- Modelled from the spec: the `ttc` reward function — 0.0 on collision;
else the reported min time-to-collision; else the sentinel penalty. -/
def ttcReward (o : Outcome) : ℚ :=
  if o.collision then 0
  else
    match o.min_time_to_collision with
    | some t => t
    | none => sentinelPenalty

/-- Modelled from the spec: the `distance` reward function — 0.0 on
collision; else the reported min distance; else the sentinel penalty. -/
def distanceReward (o : Outcome) : ℚ :=
  if o.collision then 0
  else
    match o.min_distance with
    | some d => d
    | none => sentinelPenalty

/-- Modelled from the spec: the `ttc_div_dist` reward function — the
ratio ttc/distance when both are present and distance is positive,
falling back to whichever metric is present, sentinel when neither is. -/
def ttcDivDistReward (o : Outcome) : ℚ :=
  if o.collision then 0
  else
    match o.min_time_to_collision, o.min_distance with
    | some t, some d => if 0 < d then t / d else t
    | some t, none => t
    | none, some d => d
    | none, none => sentinelPenalty

/-- Modelled from the spec: the `weighted_multi` reward function — a
weighted sum of normalized ttc (0.5), normalized distance (0.3) and
normalized velocity (0.2); 0.0 on collision. -/
def weightedMultiReward (o : Outcome) : ℚ :=
  if o.collision then 0
  else
    1/2 * normalizeOpt ttcScale o.min_time_to_collision
      + 3/10 * normalizeOpt distScale o.min_distance
      + 1/5 * (1 - min o.ego_velocity velScale / velScale)

/-- Modelled from the spec: the `safety_margin` reward function — the
inverse of the minimum of normalized ttc and normalized distance, with
the sentinel penalty when that minimum is not positive; 0.0 on
collision. -/
def safetyMarginReward (o : Outcome) : ℚ :=
  if o.collision then 0
  else
    let m := min (normalizeOpt ttcScale o.min_time_to_collision)
                 (normalizeOpt distScale o.min_distance)
    if 0 < m then 1 / m else sentinelPenalty

/-- Modelled from the spec: the closed registry of named reward
functions (spec.md section 4.3, design note on explicit name-to-function
mappings). -/
inductive RewardFn
  | collision
  | ttc
  | distance
  | ttc_div_dist
  | weighted_multi
  | safety_margin
deriving DecidableEq

/-- Dispatch of a registry entry to its reward function. -/
def applyReward : RewardFn → Outcome → ℚ
  | .collision, o => collisionReward o
  | .ttc, o => ttcReward o
  | .distance, o => distanceReward o
  | .ttc_div_dist, o => ttcDivDistReward o
  | .weighted_multi, o => weightedMultiReward o
  | .safety_margin, o => safetyMarginReward o

/-- Modelled from the spec: the name-to-function registry. -/
def rewardRegistry : List (String × RewardFn) :=
  [("collision", .collision), ("ttc", .ttc), ("distance", .distance),
   ("ttc_div_dist", .ttc_div_dist), ("weighted_multi", .weighted_multi),
   ("safety_margin", .safety_margin)]

/-- Modelled from the spec: `score` — invalid outcomes always map to the
sentinel penalty regardless of the selected function; otherwise the
selected registry function is applied. -/
def score (fn : RewardFn) (o : Outcome) : ℚ :=
  if o.valid then applyReward fn o else sentinelPenalty

/-- Checked variant of `ttcDivDistReward` with every division tracked. -/
def ttcDivDistRewardChk (o : Outcome) : Option ℚ :=
  if o.collision then some 0
  else
    match o.min_time_to_collision, o.min_distance with
    | some t, some d => if 0 < d then chkDiv t d else some t
    | some t, none => some t
    | none, some d => some d
    | none, none => some sentinelPenalty

/-- Checked variant of `weightedMultiReward` with every division tracked. -/
def weightedMultiRewardChk (o : Outcome) : Option ℚ :=
  if o.collision then some 0
  else
    match normalizeOptChk ttcScale o.min_time_to_collision,
          normalizeOptChk distScale o.min_distance,
          chkDiv (min o.ego_velocity velScale) velScale with
    | some a, some b, some c => some (1/2 * a + 3/10 * b + 1/5 * (1 - c))
    | _, _, _ => none

/-- Checked variant of `safetyMarginReward` with every division tracked. -/
def safetyMarginRewardChk (o : Outcome) : Option ℚ :=
  if o.collision then some 0
  else
    match normalizeOptChk ttcScale o.min_time_to_collision,
          normalizeOptChk distScale o.min_distance with
    | some a, some b =>
        if 0 < min a b then chkDiv 1 (min a b) else some sentinelPenalty
    | _, _ => none

/-- Checked dispatch: every division of the reward evaluator tracked, so
`none` marks exactly the inputs where a floating-point implementation
could produce NaN or an infinity. -/
def scoreChk (fn : RewardFn) (o : Outcome) : Option ℚ :=
  if o.valid then
    match fn with
    | .collision => some (collisionReward o)
    | .ttc => some (ttcReward o)
    | .distance => some (distanceReward o)
    | .ttc_div_dist => ttcDivDistRewardChk o
    | .weighted_multi => weightedMultiRewardChk o
    | .safety_margin => safetyMarginRewardChk o
  else some sentinelPenalty

theorem normalizeOptChk_eq (scale : ℚ) (hs : scale ≠ 0) (x : Option ℚ) :
    normalizeOptChk scale x = some (normalizeOpt scale x) := by
  cases x with
  | none => rfl
  | some v => simp [normalizeOptChk, normalizeOpt, chkDiv, hs]

theorem ttcScale_ne : ttcScale ≠ 0 := by norm_num [ttcScale]

theorem distScale_ne : distScale ≠ 0 := by norm_num [distScale]

theorem velScale_ne : velScale ≠ 0 := by norm_num [velScale]

theorem scoreChk_eq_score (fn : RewardFn) (o : Outcome) :
    scoreChk fn o = some (score fn o) := by
  unfold scoreChk score
  by_cases hv : o.valid
  · simp only [hv, if_true]
    cases fn with
    | collision => rfl
    | ttc => rfl
    | distance => rfl
    | ttc_div_dist =>
        simp only [applyReward, ttcDivDistRewardChk, ttcDivDistReward]
        by_cases hc : o.collision
        · simp [hc]
        · simp only [hc, if_false, Bool.false_eq_true]
          cases o.min_time_to_collision with
          | none => cases o.min_distance <;> rfl
          | some t =>
              cases o.min_distance with
              | none => rfl
              | some d =>
                  by_cases hd : 0 < d
                  · simp [hd, chkDiv, ne_of_gt hd]
                  · simp [hd]
    | weighted_multi =>
        simp only [applyReward, weightedMultiRewardChk, weightedMultiReward]
        by_cases hc : o.collision
        · simp [hc]
        · simp only [hc, if_false, Bool.false_eq_true]
          rw [normalizeOptChk_eq ttcScale ttcScale_ne,
              normalizeOptChk_eq distScale distScale_ne]
          simp [chkDiv, velScale_ne]
    | safety_margin =>
        simp only [applyReward, safetyMarginRewardChk, safetyMarginReward]
        by_cases hc : o.collision
        · simp [hc]
        · simp only [hc, if_false, Bool.false_eq_true]
          rw [normalizeOptChk_eq ttcScale ttcScale_ne,
              normalizeOptChk_eq distScale distScale_ne]
          by_cases hm : 0 < min (normalizeOpt ttcScale o.min_time_to_collision)
              (normalizeOpt distScale o.min_distance)
          · simp [hm, chkDiv, ne_of_gt hm]
          · simp [hm]
  · simp [hv]

/-! ### Range Resolver (Modelled from the spec: section 4.1 of spec.md and
docs/PARAMETER_RANGES_GUIDE.md; the original resolver module is not in the
snapshot). -/

/-- Modelled from the spec: the semantic categories used to classify
parameter names (spec.md section 3, ParameterSpec.semantic_type). -/
inductive SemType
  | velocity
  | position
  | timing
  | unknown
deriving DecidableEq

/-- Suffix test on character lists (kernel-reducible stand-in for the
string suffix matching of the classifier). -/
def sfx (pat s : List Char) : Bool :=
  List.isPrefixOf pat.reverse s.reverse

/-- Substring test on character lists (kernel-reducible stand-in for the
string substring matching of the classifier). -/
def hasSub (pat : List Char) : List Char → Bool
  | [] => pat.isEmpty
  | c :: t => List.isPrefixOf pat (c :: t) || hasSub pat t

/-- Modelled from the spec: deterministic semantic classification of a
parameter name by suffix/substring match against the token lists of
docs/PARAMETER_RANGES_GUIDE.md (velocity: suffix `_v`, substrings
`velocity`/`speed`; position: suffixes `_p`/`_r`, substrings
`position`/`distance`; timing: substrings `time`/`delay`/`duration`);
unmatched names classify as unknown. -/
def classify (name : String) : SemType :=
  let cs := name.toList
  if sfx "_v".toList cs || hasSub "velocity".toList cs ||
      hasSub "speed".toList cs then .velocity
  else if sfx "_p".toList cs || sfx "_r".toList cs ||
      hasSub "position".toList cs || hasSub "distance".toList cs then .position
  else if hasSub "time".toList cs || hasSub "delay".toList cs ||
      hasSub "duration".toList cs then .timing
  else .unknown

/-- Modelled from the spec: the fallback block of the range
configuration — a strategy name plus conservative and wide default
ranges per semantic category. -/
structure FallbackConfig where
  strategy : String
  conservative : SemType → ℚ × ℚ
  wide : SemType → ℚ × ℚ

/-- Modelled from the spec: the loaded range configuration — parameter
type defaults keyed by semantic category and parameter name, scenario
overrides keyed by scenario type and parameter name, and the fallback
block (spec.md section 3, RangeConfiguration). -/
structure RangeConfig where
  parameter_types : SemType → List (String × (ℚ × ℚ))
  scenario_overrides : List (String × List (String × (ℚ × ℚ)))
  fallback : FallbackConfig

/-- Modelled from the spec: the hardcoded generic numeric range used by
tier 5 for parameters of unknown semantic type (the spec fixes only its
existence; the endpoints are a documented modelling choice). -/
def genericFallbackRange : ℚ × ℚ := (1/10, 10)

/-- Modelled from the spec: tier 5 — the configured conservative or wide
default range for the matched semantic type, or the hardcoded generic
range for unknown. -/
def fallbackRange (fb : FallbackConfig) (t : SemType) : ℚ × ℚ :=
  match t with
  | .unknown => genericFallbackRange
  | t => if fb.strategy = "wide_range" then fb.wide t else fb.conservative t

/-- Modelled from the spec: tier 2 — the scenario-specific override for
this scenario type and parameter name, when configured. -/
def scenarioOverride (cfg : RangeConfig) (stype name : String) :
    Option (ℚ × ℚ) :=
  (cfg.scenario_overrides.lookup stype).bind fun m => m.lookup name

/-- Modelled from the spec: tier 3 — the parameter-type default entry
matched by semantic classification of the parameter name. -/
def typeDefault (cfg : RangeConfig) (name : String) : Option (ℚ × ℚ) :=
  (cfg.parameter_types (classify name)).lookup name

/-- Modelled from the spec: tier 4 — the intelligent default computed
from the current value (velocity 0.5x–1.5x, position 0.7x–1.3x, timing
0.5x–2.0x, unknown 0.8x–1.2x); skipped when the current value is zero. -/
def intelligentDefault (t : SemType) (current : ℚ) : Option (ℚ × ℚ) :=
  if current = 0 then none
  else some (match t with
    | .velocity => (1/2 * current, 3/2 * current)
    | .position => (7/10 * current, 13/10 * current)
    | .timing => (1/2 * current, 2 * current)
    | .unknown => (4/5 * current, 6/5 * current))

/-- Modelled from the spec: the 5-tier priority chain — first matching
tier wins, no merging across tiers (spec.md section 4.1). -/
def chooseRange (cfg : RangeConfig) (name stype : String) (current : ℚ)
    (user_override : Option (ℚ × ℚ)) : ℚ × ℚ :=
  match user_override with
  | some r => r
  | none =>
    match scenarioOverride cfg stype name with
    | some r => r
    | none =>
      match typeDefault cfg name with
      | some r => r
      | none =>
        match intelligentDefault (classify name) current with
        | some r => r
        | none => fallbackRange cfg.fallback (classify name)

/-- Modelled from the spec: the error raised when no tier produces a
valid range; it names the offending parameter. -/
structure RangeResolutionError where
  parameter : String
deriving DecidableEq

/-- Modelled from the spec: `resolve` — pick the first matching tier and
validate the pair, failing with a `RangeResolutionError` naming the
parameter instead of ever returning a degenerate range. -/
def resolve (cfg : RangeConfig) (name stype : String) (current : ℚ)
    (user_override : Option (ℚ × ℚ)) :
    Except RangeResolutionError (ℚ × ℚ) :=
  let r := chooseRange cfg name stype current user_override
  if r.1 < r.2 then .ok r else .error ⟨name⟩

/-- An empty range configuration (no type defaults, no scenario
overrides, conservative fallback behaviour); used to exercise the lower
tiers on concrete inputs. -/
def emptyRangeConfig : RangeConfig :=
  ⟨fun _ => [], [],
   ⟨"intelligent_defaults", fun _ => (1, 15), fun _ => (1/10, 30)⟩⟩

/-- C1: for every reward function in the registry and every Outcome —
including invalid outcomes and outcomes with missing optional fields —
`score` is total and division-safe (the checked evaluator never reaches
the NaN/infinity path, so the result is a finite rational), and whenever
`valid = false` the score is the sentinel penalty regardless of the
selected function. -/
theorem score_total_finite_and_invalid_sentinel (fn : RewardFn) (o : Outcome) :
    scoreChk fn o = some (score fn o) ∧
      (o.valid = false → score fn o = sentinelPenalty) := by
  refine ⟨scoreChk_eq_score fn o, fun hv => ?_⟩
  simp [score, hv]

/-- Witness for C1 at a concrete invalid outcome with both optional
fields missing: the `ttc_div_dist` score is the sentinel penalty 1000 and
the checked evaluator returns it. -/
theorem score_total_finite_and_invalid_sentinel_witness :
    score RewardFn.ttc_div_dist
        ⟨false, none, none, 3, 4, 7, false⟩ = 1000 ∧
      scoreChk RewardFn.ttc_div_dist
        ⟨false, none, none, 3, 4, 7, false⟩ = some 1000 := by
  have h := score_total_finite_and_invalid_sentinel RewardFn.ttc_div_dist
    ⟨false, none, none, 3, 4, 7, false⟩
  have h2 := h.2 rfl
  refine ⟨h2, ?_⟩
  rw [h.1, h2]
  rfl

/-- C8: the `ttc` reward function returns exactly the reported
min time-to-collision 3.24 when there is no collision, and returns
exactly 0 on any outcome with a collision, regardless of the value of
`min_time_to_collision`. -/
theorem ttcReward_scenario (o : Outcome) :
    (o.collision = false → o.min_time_to_collision = some (3.24 : ℚ) →
        ttcReward o = 3.24) ∧
      (o.collision = true → ttcReward o = 0) := by
  constructor
  · intro hc ht
    simp [ttcReward, hc, ht]
  · intro hc
    simp [ttcReward, hc]

/-- Witness for C8 at concrete outcomes: a collision-free outcome with
ttc 3.24 scores 3.24, and a collision outcome with the same ttc field
scores 0. -/
theorem ttcReward_scenario_witness :
    ttcReward ⟨false, some (3.24 : ℚ), some 12, 10, 8, 1, true⟩ = 3.24 ∧
      ttcReward ⟨true, some (3.24 : ℚ), some 12, 10, 8, 1, true⟩ = 0 :=
  ⟨(ttcReward_scenario ⟨false, some (3.24 : ℚ), some 12, 10, 8, 1, true⟩).1
      rfl rfl,
   (ttcReward_scenario ⟨true, some (3.24 : ℚ), some 12, 10, 8, 1, true⟩).2
      rfl⟩

/-- C2: whenever a (well-formed) user override is supplied for the exact
parameter name, `resolve` returns exactly that override pair, whatever
the configuration — scenario overrides, type defaults, intelligent
default and fallback tiers included — would otherwise produce. -/
theorem resolve_user_override_wins (cfg : RangeConfig) (name stype : String)
    (current lo hi : ℚ) (h : lo < hi) :
    resolve cfg name stype current (some (lo, hi)) = .ok (lo, hi) := by
  simp [resolve, chooseRange, h]

/-- Witness for C2: a user override (2, 9) on a parameter that also has
an empty-config path returns exactly (2, 9). -/
theorem resolve_user_override_wins_witness :
    resolve emptyRangeConfig "absolute_v" "OSG_CutIn_One" 15
        (some (2, 9)) = .ok (2, 9) :=
  resolve_user_override_wins emptyRangeConfig "absolute_v" "OSG_CutIn_One"
    15 2 9 (by norm_num)

/-- C4: for every input, `resolve` either returns a strictly ordered
pair (lower strictly below upper) or fails with a
`RangeResolutionError` naming the parameter; it never returns a
degenerate range. -/
theorem resolve_never_degenerate (cfg : RangeConfig) (name stype : String)
    (current : ℚ) (user_override : Option (ℚ × ℚ)) :
    (∃ lo hi, resolve cfg name stype current user_override = .ok (lo, hi) ∧
        lo < hi) ∨
      (∃ e, resolve cfg name stype current user_override = .error e ∧
        e.parameter = name) := by
  unfold resolve
  by_cases h : (chooseRange cfg name stype current user_override).1 <
      (chooseRange cfg name stype current user_override).2
  · exact Or.inl ⟨_, _, by simp [h], h⟩
  · exact Or.inr ⟨⟨name⟩, by simp [h], rfl⟩

/-- C5: the parameter name absolute_v classifies as a velocity, and when
the user override is empty and neither a scenario override nor a type
default matches (so the tier-4 intelligent default is active), resolving
it at current value 15 yields exactly (7.5, 22.5) — 0.5x and 1.5x of the
current value. -/
theorem resolve_absolute_v_intelligent_default :
    classify "absolute_v" = SemType.velocity ∧
      ∀ cfg : RangeConfig, ∀ stype : String,
        scenarioOverride cfg stype "absolute_v" = none →
        typeDefault cfg "absolute_v" = none →
        resolve cfg "absolute_v" stype 15 none = .ok (7.5, 22.5) := by
  have hcl : classify "absolute_v" = SemType.velocity := by decide
  refine ⟨hcl, fun cfg stype h2 h3 => ?_⟩
  unfold resolve chooseRange
  rw [h2, h3, hcl]
  norm_num [intelligentDefault]

/-- Witness for C5: on the empty configuration the intelligent default
is reached and yields (7.5, 22.5). -/
theorem resolve_absolute_v_intelligent_default_witness :
    resolve emptyRangeConfig "absolute_v" "OSG_CutIn_One" 15 none =
      .ok (7.5, 22.5) :=
  resolve_absolute_v_intelligent_default.2 emptyRangeConfig "OSG_CutIn_One"
    rfl rfl

/-- C6: the intelligent-default tier produces nothing at current value
zero for every semantic type, and a resolution that reaches tier 4 with
current value zero falls through to tier 5, the configured fallback
range (validated like every other tier output). -/
theorem intelligent_default_skips_zero :
    (∀ t : SemType, intelligentDefault t 0 = none) ∧
      ∀ cfg : RangeConfig, ∀ name stype : String,
        scenarioOverride cfg stype name = none →
        typeDefault cfg name = none →
        resolve cfg name stype 0 none =
          (if (fallbackRange cfg.fallback (classify name)).1 <
              (fallbackRange cfg.fallback (classify name)).2 then
            .ok (fallbackRange cfg.fallback (classify name))
          else .error ⟨name⟩) := by
  constructor
  · intro t
    simp [intelligentDefault]
  · intro cfg name stype h2 h3
    unfold resolve chooseRange
    rw [h2, h3]
    simp [intelligentDefault]

/-- Witness for C6: on the empty configuration a parameter of unknown
semantic type at current value 0 resolves to the generic tier-5 fallback
range (0.1, 10). -/
theorem intelligent_default_skips_zero_witness :
    resolve emptyRangeConfig "zeta" "OSG_Junction" 0 none =
      .ok (1/10, 10) := by
  rw [intelligent_default_skips_zero.2 emptyRangeConfig "zeta" "OSG_Junction"
    rfl rfl]
  have hcl : classify "zeta" = SemType.unknown := by decide
  rw [hcl]
  norm_num [fallbackRange, genericFallbackRange]

/-! ### Best-solution bookkeeping (Modelled from the spec: sections 3 and
4.5 of spec.md; the orchestrator module is not in the snapshot). -/

/-- Modelled from the spec: one row of the search history — a completed
evaluation with its candidate vector and scored reward (spec.md
section 3, SearchRecord). -/
structure SearchRecord where
  iteration : Nat
  scenario_number : Nat
  candidate_vector : List ℚ
  reward : ℚ
deriving DecidableEq

/-- Modelled from the spec: the best-so-far update applied after every
evaluation — replace only on a strict reward improvement, so ties keep
the earlier solution (spec.md section 3, BestSolution). -/
def updateBest (best : Option SearchRecord) (r : SearchRecord) :
    Option SearchRecord :=
  match best with
  | none => some r
  | some b => if r.reward < b.reward then some r else some b

/-- The best solution after processing a search history in order,
starting from the reset state at run start. -/
def bestAfter (hist : List SearchRecord) : Option SearchRecord :=
  hist.foldl updateBest none

theorem foldl_updateBest_le (l : List SearchRecord) :
    ∀ b : SearchRecord, ∃ b' : SearchRecord,
      List.foldl updateBest (some b) l = some b' ∧ b'.reward ≤ b.reward := by
  induction l with
  | nil => exact fun b => ⟨b, rfl, le_refl _⟩
  | cons r t ih =>
      intro b
      by_cases h : r.reward < b.reward
      · obtain ⟨b', hb', hle⟩ := ih r
        exact ⟨b', by simpa [updateBest, h] using hb',
          le_trans hle (le_of_lt h)⟩
      · obtain ⟨b', hb', hle⟩ := ih b
        exact ⟨b', by simpa [updateBest, h] using hb', hle⟩

/-- C3: the best-so-far reward never increases along the search history
(processing one more record can only keep or lower it), the best
solution changes only when the new reward is strictly below the current
best, and on an exact tie the earlier-found solution is kept. -/
theorem bestSolution_monotone :
    (∀ hist : List SearchRecord, ∀ i : Nat, ∀ b : SearchRecord,
        bestAfter (hist.take i) = some b →
        ∃ b' : SearchRecord, bestAfter (hist.take (i + 1)) = some b' ∧
          b'.reward ≤ b.reward) ∧
      (∀ b r : SearchRecord,
        updateBest (some b) r ≠ some b → r.reward < b.reward) ∧
      (∀ b r : SearchRecord,
        r.reward = b.reward → updateBest (some b) r = some b) := by
  refine ⟨?_, ?_, ?_⟩
  · intro hist i b hb
    have ht : hist.take (i + 1) = hist.take i ++ hist[i]?.toList :=
      List.take_succ
    rw [bestAfter, ht, List.foldl_append]
    rw [bestAfter] at hb
    rw [hb]
    exact foldl_updateBest_le hist[i]?.toList b
  · intro b r hne
    by_contra h
    exact hne (by simp [updateBest, h])
  · intro b r heq
    simp [updateBest, heq]

/-- Witness for C3 on a concrete two-record history with a tie: the best
after both records is still the first record, its reward did not
increase from step one to step two, and the tie kept the earlier
record. -/
theorem bestSolution_monotone_witness :
    (∃ b' : SearchRecord,
        bestAfter (([⟨1, 1, [3], 5⟩, ⟨2, 2, [4], 5⟩] :
          List SearchRecord).take 2) = some b' ∧
          b'.reward ≤ (⟨1, 1, [3], 5⟩ : SearchRecord).reward) ∧
      updateBest (some ⟨1, 1, [3], 5⟩) ⟨2, 2, [4], 5⟩ =
        some (⟨1, 1, [3], 5⟩ : SearchRecord) :=
  ⟨bestSolution_monotone.1 [⟨1, 1, [3], 5⟩, ⟨2, 2, [4], 5⟩] 1
      ⟨1, 1, [3], 5⟩ rfl,
   bestSolution_monotone.2.2 ⟨1, 1, [3], 5⟩ ⟨2, 2, [4], 5⟩ rfl⟩

/-! ### Search strategies: PSO and GA update steps (Modelled from the
spec: section 4.4 of spec.md; the strategy modules are not in the
snapshot).  Random draws are passed in explicitly as streams, as the
spec seeds all randomness deterministically. -/

/-- Modelled from the spec: clipping of a value to the closed interval
[lo, hi] after every position update. -/
def clip (lo hi x : ℚ) : ℚ := max lo (min x hi)

/-- Clipping applied dimension-wise to a candidate vector against the
per-dimension bounds. -/
def clipVec (bounds : List (ℚ × ℚ)) (v : List ℚ) : List ℚ :=
  List.zipWith (fun b x => clip b.1 b.2 x) bounds v

/-- A position is within bounds when every dimension that has a bound
lies inside the corresponding closed interval. -/
def inBoundsB (bounds : List (ℚ × ℚ)) (pos : List ℚ) : Bool :=
  (bounds.zip pos).all fun bx => decide (bx.1.1 ≤ bx.2 ∧ bx.2 ≤ bx.1.2)

/-- Well-formed bounds: lower at most upper in every dimension. -/
def boundsWF (bounds : List (ℚ × ℚ)) : Bool :=
  bounds.all fun b => decide (b.1 ≤ b.2)

/-- Modelled from the spec: a PSO particle — position, velocity and
personal best. -/
structure Particle where
  pos : List ℚ
  vel : List ℚ
  pbest : List ℚ
deriving DecidableEq

/-- Modelled from the spec: the PSO swarm state — the population plus
the global best position. -/
structure PSOState where
  particles : List Particle
  gbest : List ℚ
deriving DecidableEq

/-- Modelled from the spec: the PSO velocity rule per dimension —
w*v + c1*r1*(pbest - x) + c2*r2*(gbest - x) with independent uniform
draws r1, r2 supplied per dimension. -/
def psoVel (w c1 c2 : ℚ) :
    List ℚ → List ℚ → List ℚ → List ℚ → List ℚ → List ℚ → List ℚ
  | v :: vs, x :: xs, p :: ps, g :: gs, a :: ra, b :: rb =>
      (w * v + c1 * a * (p - x) + c2 * b * (g - x)) ::
        psoVel w c1 c2 vs xs ps gs ra rb
  | _, _, _, _, _, _ => []

/-- Modelled from the spec: one particle update — new velocity by the
PSO rule, new position clipped to the bounds, personal best replaced
only on strict improvement under the evaluation function f. -/
def updateParticle (bounds : List (ℚ × ℚ)) (w c1 c2 : ℚ)
    (f : List ℚ → ℚ) (gbest r1 r2 : List ℚ) (p : Particle) : Particle :=
  let v2 := psoVel w c1 c2 p.vel p.pos p.pbest gbest r1 r2
  let x2 := clipVec bounds (List.zipWith (fun a b => a + b) p.pos v2)
  ⟨x2, v2, if f x2 < f p.pbest then x2 else p.pbest⟩

/-- Modelled from the spec: one PSO iteration — a full population sweep,
each particle consuming its own pair of per-dimension random streams,
followed by the global-best update (strict improvement only). -/
def psoStep (bounds : List (ℚ × ℚ)) (w c1 c2 : ℚ) (f : List ℚ → ℚ)
    (rands : List (List ℚ × List ℚ)) (st : PSOState) : PSOState :=
  let parts := List.zipWith
    (fun r p => updateParticle bounds w c1 c2 f st.gbest r.1 r.2 p)
    rands st.particles
  ⟨parts,
   parts.foldl (fun g p => if f p.pbest < f g then p.pbest else g) st.gbest⟩

/-- A PSO run over a stream of per-iteration random inputs. -/
def psoRun (bounds : List (ℚ × ℚ)) (w c1 c2 : ℚ) (f : List ℚ → ℚ)
    (randss : List (List (List ℚ × List ℚ))) (st : PSOState) : PSOState :=
  randss.foldl (fun s r => psoStep bounds w c1 c2 f r s) st

/-- Modelled from the spec: the random inputs consumed when producing
one GA offspring — the two parent indices chosen by reward-biased
selection, the blend coefficient of the crossover, and the mutation
perturbation per dimension. -/
structure GAChildInput where
  parent1 : Nat
  parent2 : Nat
  alpha : ℚ
  delta : List ℚ
deriving DecidableEq

/-- Modelled from the spec: blend crossover of two real-valued parent
vectors. -/
def blendCross (a : ℚ) (x y : List ℚ) : List ℚ :=
  List.zipWith (fun u v => a * u + (1 - a) * v) x y

/-- Modelled from the spec: mutation as a bounded per-dimension
perturbation added to the child vector. -/
def mutateVec (delta c : List ℚ) : List ℚ :=
  List.zipWith (fun d x => x + d) delta c

/-- Modelled from the spec: one GA offspring — crossover of the selected
parents, mutation, then clipping to the bounds. -/
def gaChild (bounds : List (ℚ × ℚ)) (pop : List (List ℚ))
    (inp : GAChildInput) : List ℚ :=
  clipVec bounds (mutateVec inp.delta
    (blendCross inp.alpha (pop.getD inp.parent1 [])
      (pop.getD inp.parent2 [])))

/-- Modelled from the spec: one GA generation — the new population is
the list of clipped offspring produced from the selection/crossover/
mutation inputs. -/
def gaStep (bounds : List (ℚ × ℚ)) (pop : List (List ℚ))
    (inps : List GAChildInput) : List (List ℚ) :=
  inps.map (gaChild bounds pop)

/-- A GA run over a stream of per-generation inputs. -/
def gaRun (bounds : List (ℚ × ℚ)) (inpss : List (List GAChildInput))
    (pop : List (List ℚ)) : List (List ℚ) :=
  inpss.foldl (gaStep bounds) pop

/-- Every particle of a PSO state sits inside the bounds. -/
def allInBounds (bounds : List (ℚ × ℚ)) (st : PSOState) : Bool :=
  st.particles.all fun p => inBoundsB bounds p.pos

theorem clip_mem (lo hi x : ℚ) (h : lo ≤ hi) :
    lo ≤ clip lo hi x ∧ clip lo hi x ≤ hi :=
  ⟨le_max_left lo (min x hi), max_le h (min_le_right x hi)⟩

theorem inBoundsB_clipVec (bounds : List (ℚ × ℚ))
    (hb : boundsWF bounds = true) (v : List ℚ) :
    inBoundsB bounds (clipVec bounds v) = true := by
  induction bounds generalizing v with
  | nil => simp [clipVec, inBoundsB]
  | cons b bs ih =>
      have hb1 : b.1 ≤ b.2 := by
        have := (List.all_eq_true.mp hb) b (List.mem_cons_self b bs)
        exact of_decide_eq_true this
      have hbs : boundsWF bs = true := by
        refine List.all_eq_true.mpr fun x hx => ?_
        exact (List.all_eq_true.mp hb) x (List.mem_cons_of_mem b hx)
      cases v with
      | nil => simp [clipVec, inBoundsB]
      | cons x xs =>
          have hm := clip_mem b.1 b.2 x hb1
          simp only [clipVec, List.zipWith_cons_cons, inBoundsB,
            List.zip_cons_cons, List.all_cons, Bool.and_eq_true,
            decide_eq_true_eq]
          exact ⟨hm, ih hbs xs⟩

theorem all_zipWith {α β γ : Type} (g : α → β → γ) (q : γ → Bool)
    (h : ∀ a b, q (g a b) = true) :
    ∀ (l1 : List α) (l2 : List β), (List.zipWith g l1 l2).all q = true := by
  intro l1
  induction l1 with
  | nil => intro l2; simp
  | cons a t ih =>
      intro l2
      cases l2 with
      | nil => simp
      | cons b t2 => simp [h a b, ih t2]

theorem psoStep_inBounds (bounds : List (ℚ × ℚ))
    (hb : boundsWF bounds = true) (w c1 c2 : ℚ) (f : List ℚ → ℚ)
    (rands : List (List ℚ × List ℚ)) (st : PSOState) :
    allInBounds bounds (psoStep bounds w c1 c2 f rands st) = true := by
  show (List.zipWith
      (fun r p => updateParticle bounds w c1 c2 f st.gbest r.1 r.2 p)
      rands st.particles).all (fun p => inBoundsB bounds p.pos) = true
  exact all_zipWith
    (fun r p => updateParticle bounds w c1 c2 f st.gbest r.1 r.2 p)
    (fun p => inBoundsB bounds p.pos)
    (fun r p => inBoundsB_clipVec bounds hb _) rands st.particles

theorem gaStep_inBounds (bounds : List (ℚ × ℚ))
    (hb : boundsWF bounds = true) (pop : List (List ℚ))
    (inps : List GAChildInput) :
    (gaStep bounds pop inps).all (inBoundsB bounds) = true := by
  unfold gaStep
  refine List.all_eq_true.mpr fun x hx => ?_
  obtain ⟨i, hi, rfl⟩ := List.mem_map.mp hx
  exact inBoundsB_clipVec bounds hb _

theorem foldl_preserves {σ ι : Type} (f : σ → ι → σ) (P : σ → Prop)
    (hstep : ∀ s i, P (f s i)) :
    ∀ (l : List ι) (s : σ), P s → P (List.foldl f s l) := by
  intro l
  induction l with
  | nil => exact fun s hs => hs
  | cons i t ih => exact fun s _ => ih (f s i) (hstep s i)

/-- C7: for PSO and for GA, the clipping invariant is preserved by every
update of the search state — after any number of iterations (every
prefix of the random-input stream), every particle position and every GA
individual lies within the closed per-dimension bounds, provided the
bounds are well-formed and the initial population is within them. -/
theorem pso_ga_clipping_invariant (bounds : List (ℚ × ℚ))
    (hb : boundsWF bounds = true) (w c1 c2 : ℚ) (f : List ℚ → ℚ)
    (st0 : PSOState) (h0 : allInBounds bounds st0 = true)
    (randss : List (List (List ℚ × List ℚ)))
    (pop0 : List (List ℚ)) (hp0 : pop0.all (inBoundsB bounds) = true)
    (inpss : List (List GAChildInput)) :
    (∀ k : Nat,
        allInBounds bounds
          (psoRun bounds w c1 c2 f (randss.take k) st0) = true) ∧
      (∀ k : Nat,
        (gaRun bounds (inpss.take k) pop0).all (inBoundsB bounds) = true) := by
  constructor
  · intro k
    exact foldl_preserves _ (fun s => allInBounds bounds s = true)
      (fun s r => psoStep_inBounds bounds hb w c1 c2 f r s)
      (randss.take k) st0 h0
  · intro k
    exact foldl_preserves _ (fun p => p.all (inBoundsB bounds) = true)
      (fun p i => gaStep_inBounds bounds hb p i)
      (inpss.take k) pop0 hp0

/-- Witness for C7 on one dimension bounded [0, 10]: one PSO iteration
from a swarm of one particle and one GA generation from a population of
one individual both stay within the bounds. -/
theorem pso_ga_clipping_invariant_witness :
    allInBounds [((0 : ℚ), (10 : ℚ))]
        (psoRun [((0 : ℚ), (10 : ℚ))] (4/5) (1/2) (1/2) (fun _ => 0)
          ([[([1], [1])]].take 1) ⟨[⟨[5], [2], [5]⟩], [5]⟩) = true ∧
      (gaRun [((0 : ℚ), (10 : ℚ))] ([[⟨0, 0, 1/2, [20]⟩]].take 1)
          [[5]]).all (inBoundsB [((0 : ℚ), (10 : ℚ))]) = true := by
  have h := pso_ga_clipping_invariant [((0 : ℚ), (10 : ℚ))] (by decide)
    (4/5) (1/2) (1/2) (fun _ => 0) ⟨[⟨[5], [2], [5]⟩], [5]⟩ (by decide)
    [[([1], [1])]] [[5]] (by decide) [[⟨0, 0, 1/2, [20]⟩]]
  exact ⟨h.1 1, h.2 1⟩

/-! ### The shipped range configuration (embedded from
config/parameter_ranges.yaml). -/

/-- The `parameter_types` section of config/parameter_ranges.yaml:
global default ranges organized by semantic category. -/
def parameterTypesYaml : List (String × List (String × (ℚ × ℚ))) :=
  [("velocity",
    [("absolute_v", (5, 25)), ("relative_v", (-15, 15)),
     ("v_ego", (mkRat 1 10, 17)), ("v_1", (0, 15)), ("v_2", (0, 15)),
     ("v_3", (0, 15))]),
   ("position",
    [("relative_p", (5, 80)), ("relative_p_1", (5, 80)),
     ("relative_p_2", (5, 80)), ("relative_p_3", (5, 80)),
     ("r_ego", (10, 70)), ("r_1", (10, 70)), ("r_2", (10, 70)),
     ("r_3", (10, 70))]),
   ("timing",
    [("delay", (mkRat 1 10, 3)), ("duration", (1, 10)),
     ("reaction_time", (mkRat 1 5, 2))])]

/-- The `scenario_overrides` section of config/parameter_ranges.yaml. -/
def scenarioOverridesYaml : List (String × List (String × (ℚ × ℚ))) :=
  [("OSG_CutIn_One",
    [("absolute_v", (8, 20)), ("relative_p", (10, 50)),
     ("relative_v", (-10, 5))]),
   ("OSG_CutIn_Two",
    [("absolute_v", (8, 18)), ("relative_p_1", (15, 45)),
     ("relative_p_2", (20, 60)), ("relative_v_1", (-8, 3)),
     ("relative_v_2", (-5, 8))]),
   ("OSG_Junction",
    [("v_ego", (1, 12)), ("v_1", (2, 10)), ("r_ego", (15, 50)),
     ("r_1", (20, 60))])]

/-- The `fallback.conservative_defaults` section of
config/parameter_ranges.yaml. -/
def fallbackConservativeYaml : List (String × (ℚ × ℚ)) :=
  [("velocity_range", (1, 15)), ("position_range", (5, 50)),
   ("timing_range", (mkRat 1 10, 5))]

/-- The `fallback.wide_defaults` section of
config/parameter_ranges.yaml. -/
def fallbackWideYaml : List (String × (ℚ × ℚ)) :=
  [("velocity_range", (mkRat 1 10, 30)), ("position_range", (1, 100)),
   ("timing_range", (mkRat 1 20, 10))]

/-- Every range pair shipped in config/parameter_ranges.yaml: all
parameter-type defaults, all scenario overrides, and both fallback
blocks. -/
def allConfiguredRanges : List (ℚ × ℚ) :=
  (parameterTypesYaml.flatMap fun g => g.2.map fun e => e.2) ++
    (scenarioOverridesYaml.flatMap fun g => g.2.map fun e => e.2) ++
    fallbackConservativeYaml.map (fun e => e.2) ++
    fallbackWideYaml.map (fun e => e.2)

/-- C9: every range pair shipped in the parameter-ranges configuration —
each entry of parameter_types, of every scenario override, and of both
fallback default blocks — has its minimum strictly below its maximum, so
loading this configuration never takes the malformed-range rejection
path. -/
theorem configuredRanges_all_wellFormed :
    allConfiguredRanges.all (fun r => decide (r.1 < r.2)) = true := by
  decide

/-! ### Frontend progress utilities (embedded from
src/frontend/src/utils/progressUtils.ts and the types of
src/frontend/src/types/experiment.ts). -/

/-- The progress record of an experiment (ProgressInfo in
experiment.ts), restricted to the fields the progress utilities read. -/
structure ProgressInfo where
  current_iteration : ℚ
  total_iterations : ℚ
  scenarios_executed : ℚ
  total_scenarios : ℚ
  scenarios_this_iteration : ℚ
  population_size : Option ℚ
deriving DecidableEq

/-- The experiment configuration (ExperimentConfig in experiment.ts),
restricted to the field the progress utilities read. -/
structure ExperimentConfig where
  search_method : String
deriving DecidableEq

/-- The experiment record (ExperimentData in experiment.ts), restricted
to the fields the progress utilities read; `progress` is optional. -/
structure ExperimentData where
  config : ExperimentConfig
  progress : Option ProgressInfo
deriving DecidableEq

/-- The PrimaryProgress result shape of progressUtils.ts. -/
structure PrimaryProgress where
  current : ℚ
  total : ℚ
  percentage : ℚ
  label : String
  subtitle : String
deriving DecidableEq

/-- The SecondaryProgress result shape of progressUtils.ts. -/
structure SecondaryProgress where
  optimization_progress : String
  current_iteration_progress : String
deriving DecidableEq

/-- getPrimaryProgress of progressUtils.ts: iteration-based progress for
the random method, scenario-based progress for PSO/GA, a zero percentage
whenever the relevant denominator is not positive, and a placeholder
when no progress data is available. -/
def getPrimaryProgress (e : ExperimentData) : PrimaryProgress :=
  match e.progress with
  | none => ⟨0, 100, 0, "Progress", "No progress data available"⟩
  | some p =>
    if e.config.search_method = "random" then
      ⟨p.current_iteration, p.total_iterations,
       if 0 < p.total_iterations then
         p.current_iteration / p.total_iterations * 100
       else 0,
       "Iterations",
       toString p.scenarios_executed ++ " scenarios executed"⟩
    else
      ⟨p.scenarios_executed, p.total_scenarios,
       if 0 < p.total_scenarios then
         p.scenarios_executed / p.total_scenarios * 100
       else 0,
       "Scenarios",
       "Iteration " ++ toString p.current_iteration ++ "/" ++
         toString p.total_iterations⟩

/-- getSecondaryProgress of progressUtils.ts: `none` when there is no
progress data or the method is random, otherwise the optimization-level
and iteration-level progress strings. -/
def getSecondaryProgress (e : ExperimentData) : Option SecondaryProgress :=
  match e.progress with
  | none => none
  | some p =>
    if e.config.search_method = "random" then none
    else
      some ⟨toString p.current_iteration ++ " / " ++
              toString p.total_iterations ++ " iterations",
            toString p.scenarios_this_iteration ++ " / " ++
              toString (p.population_size.getD 0) ++ " scenarios"⟩

/-- The percentage computation of getPrimaryProgress with its division
tracked: `none` would mark a division by zero, which the guards of the
source rule out. -/
def getPrimaryPercentageChk (e : ExperimentData) : Option ℚ :=
  match e.progress with
  | none => some 0
  | some p =>
    if e.config.search_method = "random" then
      if 0 < p.total_iterations then
        (chkDiv p.current_iteration p.total_iterations).map fun q => q * 100
      else some 0
    else
      if 0 < p.total_scenarios then
        (chkDiv p.scenarios_executed p.total_scenarios).map fun q => q * 100
      else some 0

/-- C10: getPrimaryProgress is total and never divides by zero — the
checked percentage is always defined and equals the returned one; the
percentage is 0 when progress is absent or the relevant denominator
(total_iterations for random, total_scenarios otherwise) is not
positive, and otherwise equals current/total * 100 with current taken
from current_iteration for random and scenarios_executed for PSO/GA;
and getSecondaryProgress returns none exactly when progress is absent
or the method is random. -/
theorem progress_utils_spec (e : ExperimentData) :
    getPrimaryPercentageChk e = some (getPrimaryProgress e).percentage ∧
      (e.progress = none → (getPrimaryProgress e).percentage = 0) ∧
      (∀ p : ProgressInfo, e.progress = some p →
        e.config.search_method = "random" →
        (¬ 0 < p.total_iterations → (getPrimaryProgress e).percentage = 0) ∧
        (0 < p.total_iterations →
          (getPrimaryProgress e).percentage =
              p.current_iteration / p.total_iterations * 100 ∧
            (getPrimaryProgress e).current = p.current_iteration ∧
            (getPrimaryProgress e).total = p.total_iterations)) ∧
      (∀ p : ProgressInfo, e.progress = some p →
        e.config.search_method ≠ "random" →
        (¬ 0 < p.total_scenarios → (getPrimaryProgress e).percentage = 0) ∧
        (0 < p.total_scenarios →
          (getPrimaryProgress e).percentage =
              p.scenarios_executed / p.total_scenarios * 100 ∧
            (getPrimaryProgress e).current = p.scenarios_executed ∧
            (getPrimaryProgress e).total = p.total_scenarios)) ∧
      (getSecondaryProgress e = none ↔
        (e.progress = none ∨ e.config.search_method = "random")) := by
  obtain ⟨⟨m⟩, pr⟩ := e
  refine ⟨?_, ?_, ?_, ?_, ?_⟩
  · cases pr with
    | none => rfl
    | some p =>
        by_cases hm : m = "random"
        · by_cases ht : 0 < p.total_iterations
          · simp [getPrimaryPercentageChk, getPrimaryProgress, hm, ht,
              chkDiv, ne_of_gt ht]
          · simp [getPrimaryPercentageChk, getPrimaryProgress, hm, ht]
        · by_cases ht : 0 < p.total_scenarios
          · simp [getPrimaryPercentageChk, getPrimaryProgress, hm, ht,
              chkDiv, ne_of_gt ht]
          · simp [getPrimaryPercentageChk, getPrimaryProgress, hm, ht]
  · intro h
    cases pr with
    | none => rfl
    | some p => exact Option.noConfusion h
  · intro q hq hm
    cases pr with
    | none => exact Option.noConfusion hq
    | some p =>
        have hpq : p = q := by injection hq
        subst hpq
        have hm2 : m = "random" := hm
        constructor
        · intro ht
          simp [getPrimaryProgress, hm2, ht]
        · intro ht
          simp [getPrimaryProgress, hm2, ht]
  · intro q hq hm
    cases pr with
    | none => exact Option.noConfusion hq
    | some p =>
        have hpq : p = q := by injection hq
        subst hpq
        have hm2 : m ≠ "random" := hm
        constructor
        · intro ht
          simp [getPrimaryProgress, hm2, ht]
        · intro ht
          simp [getPrimaryProgress, hm2, ht]
  · cases pr with
    | none => simp [getSecondaryProgress]
    | some p =>
        by_cases hm : m = "random"
        · simp [getSecondaryProgress, hm]
        · simp [getSecondaryProgress, hm]

/-- Witness for C10 at concrete experiments: a running random experiment
at iteration 1 of 4 reports 25 percent and no secondary progress; a PSO
experiment with 3 of 6 scenarios executed reports 50 percent. -/
theorem progress_utils_spec_witness :
    (getPrimaryProgress ⟨⟨"random"⟩, some ⟨1, 4, 1, 4, 1, none⟩⟩).percentage
        = 25 ∧
      getSecondaryProgress ⟨⟨"random"⟩, some ⟨1, 4, 1, 4, 1, none⟩⟩ = none ∧
      (getPrimaryProgress
          ⟨⟨"pso"⟩, some ⟨1, 2, 3, 6, 3, some 3⟩⟩).percentage = 50 := by
  have h1 := progress_utils_spec ⟨⟨"random"⟩, some ⟨1, 4, 1, 4, 1, none⟩⟩
  have h2 := progress_utils_spec ⟨⟨"pso"⟩, some ⟨1, 2, 3, 6, 3, some 3⟩⟩
  refine ⟨?_, ?_, ?_⟩
  · have := ((h1.2.2.1 ⟨1, 4, 1, 4, 1, none⟩ rfl rfl).2 (by norm_num)).1
    rw [this]
    norm_num
  · exact h1.2.2.2.2.mpr (Or.inr rfl)
  · have := ((h2.2.2.2.1 ⟨1, 2, 3, 6, 3, some 3⟩ rfl (by decide)).2
      (by norm_num)).1
    rw [this]
    norm_num

end Capco
